import Mathlib

/-!
Shallow embedding of the analysis core of `desktop-analyzer-ultimate.py`
(class `UltimateLogAnalyzer`): entry parsing, severity scoring, error
classification, causal-chain construction and root-cause ranking.

Modelling conventions:
* Python strings are Lean `String`s; the Python substring test `a in b`
  is `strIn a b`, computed structurally on the character lists so that
  the kernel can evaluate it.  `str.lower` / `str.upper` / `str.strip`
  are mapped over `String.data` (the source data is ASCII).
* Python floats are modelled as exact rationals `ℚ`; numeric literals
  are transcribed verbatim from the source.
* `datetime` timestamps are integers (seconds); `timedelta(minutes=30)`
  is `30 * 60`.
* `sorted` (Timsort, a stable sort) is modelled by `List.insertionSort`,
  which is also stable for a total preorder, hence extensionally equal.
* Python dicts that are only used for ordered iteration / counting are
  association lists in insertion order (`bumpCount` reproduces
  `defaultdict(int)` updates).
-/

namespace LogAnalyzer

/-- Helper for the substring test: `strStarts needle hay` holds when
the character list `needle` is an initial segment of `hay`. -/
def strStarts : List Char → List Char → Bool
  | [], _ => true
  | _ :: _, [] => false
  | c :: cs, d :: ds => c == d && strStarts cs ds

/-- Substring test: `strHasSub needle hay` holds when `needle` occurs
contiguously in `hay`. -/
def strHasSub (needle : List Char) : List Char → Bool
  | [] => strStarts needle []
  | d :: ds => strStarts needle (d :: ds) || strHasSub needle ds

/-- Python's `needle in hay` on strings. -/
def strIn (needle hay : String) : Bool :=
  strHasSub needle.data hay.data

/-- Python's `str.lower()` (ASCII). -/
def lowerStr (s : String) : String := ⟨s.data.map Char.toLower⟩

/-- Python's `str.upper()` (ASCII). -/
def upperStr (s : String) : String := ⟨s.data.map Char.toUpper⟩

/-- Timestamps in seconds (embedding of `datetime`). -/
abbrev Timestamp := Int

/-- One parsed log line (the dict built by `parse_log_entries`). -/
structure LogEntry where
  line : Nat
  timestamp : Timestamp
  level : String
  message : String
  severity : ℚ
deriving DecidableEq

/-- The `success_indicators` list of `calculate_severity` (source
lines 691–697), transcribed verbatim. -/
def success_indicators : List String :=
  ["completed successfully", "success", "passed", "ok", "normal",
   "healthy", "good", "operational", "ready", "online", "active",
   "optimal", "excellent", "within normal range", "is good", "is normal",
   "is optimal", "is excellent", "100%", "all systems operational",
   "is valid", "are running normally", "test passed", "responded successfully"]

/-- Python `any(indicator in message_lower for indicator in
success_indicators)`. -/
def hasSuccessIndicator (message_lower : String) : Bool :=
  success_indicators.any (fun s => strIn s message_lower)

/-- The `base_scores` dict of `calculate_severity` (lines 702–705);
`base_scores.get(level, 3)` becomes the final `else` branch. -/
def base_scores (level : String) : ℚ :=
  if level = "CRITICAL" then 10
  else if level = "FATAL" then 10
  else if level = "ERROR" then 7
  else if level = "WARNING" then 5
  else if level = "WARN" then 5
  else if level = "INFO" then 3
  else if level = "DEBUG" then 1
  else if level = "TRACE" then 1
  else 3

/-- The `failure_keywords` dict of `calculate_severity` (lines 708–713)
in Python 3.7+ insertion order, which is also its iteration order. -/
def failure_keywords : List (String × ℚ) :=
  [("panic", 2.0), ("crash", 1.8), ("failed", 1.7), ("failure", 1.7),
   ("segfault", 1.9), ("timeout", 1.4), ("denied", 1.5),
   ("authentication", 1.4), ("permission", 1.3), ("refused", 1.4),
   ("unreachable", 1.5), ("disconnected", 1.3), ("lost", 1.3)]

/-- The multiplier loop of `calculate_severity` (lines 718–721): the
first keyword contained in the lowercased message multiplies the score,
then the loop `break`s; no match leaves the score unchanged. -/
def applyFirstMultiplier (message_lower : String) :
    List (String × ℚ) → ℚ → ℚ
  | [], score => score
  | (kw, m) :: rest, score =>
    if strIn kw message_lower then score * m
    else applyFirstMultiplier message_lower rest score

/-- Embedding of `calculate_severity` (source lines 686–723). -/
def calculate_severity (level message : String) : ℚ :=
  let message_lower := lowerStr message
  if hasSuccessIndicator message_lower then 0
  else min (applyFirstMultiplier message_lower failure_keywords (base_scores level)) 10

/-- Every multiplier in the table is at least 1. -/
lemma one_le_of_mem_failure_keywords {p : String × ℚ}
    (hp : p ∈ failure_keywords) : (1 : ℚ) ≤ p.2 := by
  fin_cases hp <;> norm_num

/-- Every base score is at least 1. -/
lemma one_le_base_scores (level : String) : (1 : ℚ) ≤ base_scores level := by
  unfold base_scores
  split <;> norm_num
  split <;> norm_num
  split <;> norm_num
  split <;> norm_num
  split <;> norm_num
  split <;> norm_num
  split <;> norm_num
  split <;> norm_num

/-- The multiplier loop never lowers a score that is at least 1,
provided every multiplier in the table is at least 1. -/
lemma one_le_applyFirstMultiplier (message_lower : String)
    (l : List (String × ℚ)) (score : ℚ)
    (hl : ∀ p ∈ l, (1 : ℚ) ≤ p.2) (hs : (1 : ℚ) ≤ score) :
    1 ≤ applyFirstMultiplier message_lower l score := by
  induction l with
  | nil => exact hs
  | cons p rest ih =>
    obtain ⟨kw, m⟩ := p
    have hm : (1 : ℚ) ≤ m := hl (kw, m) (List.mem_cons_self _ _)
    simp only [applyFirstMultiplier]
    split
    · nlinarith
    · exact ih (fun q hq => hl q (List.mem_cons_of_mem _ hq))

/-- If the first matching keyword of the table is `(kw, m)`, the loop
multiplies the score by exactly `m`. -/
lemma applyFirstMultiplier_eq_of_find (message_lower : String)
    (l : List (String × ℚ)) (score : ℚ) (kw : String) (m : ℚ)
    (h : l.find? (fun p => strIn p.1 message_lower) = some (kw, m)) :
    applyFirstMultiplier message_lower l score = score * m := by
  induction l with
  | nil => simp at h
  | cons p rest ih =>
    obtain ⟨kw', m'⟩ := p
    by_cases hkw : strIn kw' message_lower
    · rw [List.find?_cons_of_pos _ (by simpa using hkw)] at h
      simp only [Option.some.injEq, Prod.mk.injEq] at h
      obtain ⟨h1, h2⟩ := h
      subst h1; subst h2
      simp only [applyFirstMultiplier, if_pos hkw]
    · rw [List.find?_cons_of_neg _ (by simpa using hkw)] at h
      simp only [applyFirstMultiplier, if_neg hkw]
      exact ih h

/-- If no keyword of the table matches, the loop leaves the score
unchanged. -/
lemma applyFirstMultiplier_eq_of_find_none (message_lower : String)
    (l : List (String × ℚ)) (score : ℚ)
    (h : l.find? (fun p => strIn p.1 message_lower) = none) :
    applyFirstMultiplier message_lower l score = score := by
  induction l with
  | nil => rfl
  | cons p rest ih =>
    obtain ⟨kw', m'⟩ := p
    rw [List.find?_cons] at h
    by_cases hkw : strIn kw' message_lower
    · simp [hkw] at h
    · simp only [hkw] at h
      simp only [applyFirstMultiplier, if_neg hkw]
      exact ih (by simpa using h)

/-- Without a success indicator, the computed severity is at least 1. -/
lemma one_le_calculate_severity (level message : String)
    (h : hasSuccessIndicator (lowerStr message) = false) :
    1 ≤ calculate_severity level message := by
  unfold calculate_severity
  rw [if_neg (by simp [h])]
  refine le_min ?_ (by norm_num)
  exact one_le_applyFirstMultiplier _ _ _
    (fun p hp => one_le_of_mem_failure_keywords hp)
    (one_le_base_scores level)

/-- C1: for every log line and every level string, the severity returned
by `calculate_severity` lies in `[0, 10]`; it is exactly `0` iff the
lowercased message contains one of the fixed success indicators,
regardless of the level or of any failure keyword; and without a success
indicator the severity is strictly positive. -/
theorem severity_in_range_and_zero_iff_success (level message : String) :
    0 ≤ calculate_severity level message ∧
    calculate_severity level message ≤ 10 ∧
    (calculate_severity level message = 0 ↔
      hasSuccessIndicator (lowerStr message) = true) ∧
    (hasSuccessIndicator (lowerStr message) = false →
      0 < calculate_severity level message) := by
  by_cases h : hasSuccessIndicator (lowerStr message) = true
  · have hz : calculate_severity level message = 0 := by
      unfold calculate_severity
      rw [if_pos (by simpa using h)]
    refine ⟨by rw [hz], by rw [hz]; norm_num, by simp [hz, h], ?_⟩
    intro hfalse
    rw [hfalse] at h
    simp at h
  · have hf : hasSuccessIndicator (lowerStr message) = false := by
      simpa using h
    have h1 : 1 ≤ calculate_severity level message :=
      one_le_calculate_severity level message hf
    have hle : calculate_severity level message ≤ 10 := by
      unfold calculate_severity
      rw [if_neg (by simp [hf])]
      exact min_le_right _ _
    refine ⟨by linarith, hle, ?_, fun _ => by linarith⟩
    constructor
    · intro h0; rw [h0] at h1; norm_num at h1
    · intro ht; rw [ht] at hf; simp at hf

/-- C2 counterexample: the claim predicts that a message containing both
"unreachable" and "timeout" (and no earlier keyword of the claimed
enumeration) is scored with the ×1.5 multiplier of "unreachable".  The
code iterates `failure_keywords` in dict insertion order, where
"timeout" precedes "unreachable", so the score is `7 × 1.4 = 9.8`, not
`min (7 × 1.5) 10 = 10`. -/
theorem spec_order_multiplier_cex :
    calculate_severity "ERROR" "host unreachable timeout" = min ((7 : ℚ) * 1.4) 10 ∧
    calculate_severity "ERROR" "host unreachable timeout" ≠ min ((7 : ℚ) * 1.5) 10 := by
  have h : calculate_severity "ERROR" "host unreachable timeout" = min ((7 : ℚ) * 1.4) 10 := rfl
  refine ⟨h, ?_⟩
  rw [h]
  norm_num

/-- C2 (amended): for every message containing no success indicator,
if the first entry of `failure_keywords` — in the dict insertion order
of the source: panic, crash, failed, failure, segfault, timeout, denied,
authentication, permission, refused, unreachable, disconnected, lost —
whose keyword occurs in the lowercased message is `(kw, m)`, then the
severity is exactly the level's base score times that single multiplier
`m`, clamped to a maximum of 10; no product of several multipliers is
ever applied. -/
theorem first_matching_multiplier_in_code_order
    (level message kw : String) (m : ℚ)
    (hs : hasSuccessIndicator (lowerStr message) = false)
    (hf : failure_keywords.find? (fun p => strIn p.1 (lowerStr message)) = some (kw, m)) :
    calculate_severity level message = min (base_scores level * m) 10 ∧
    calculate_severity level message ≤ 10 := by
  have h : calculate_severity level message =
      min (applyFirstMultiplier (lowerStr message) failure_keywords (base_scores level)) 10 := by
    unfold calculate_severity
    rw [if_neg (by simp [hs])]
  rw [h, applyFirstMultiplier_eq_of_find _ _ _ kw m hf]
  exact ⟨rfl, min_le_right _ _⟩

/-- Witness for C2 (amended): a message with both "failed" and "timeout"
receives only the ×1.7 multiplier of "failed", and a message with both
"unreachable" and "timeout" receives only the ×1.4 multiplier of
"timeout". -/
theorem first_matching_multiplier_in_code_order_witness :
    calculate_severity "ERROR" "request failed after timeout" = min (base_scores "ERROR" * 1.7) 10 ∧
    calculate_severity "ERROR" "host unreachable timeout" = min (base_scores "ERROR" * 1.4) 10 :=
  ⟨(first_matching_multiplier_in_code_order "ERROR" "request failed after timeout"
      "failed" 1.7 rfl rfl).1,
   (first_matching_multiplier_in_code_order "ERROR" "host unreachable timeout"
      "timeout" 1.4 rfl rfl).1⟩

/-- The `classifications` dict of `classify_error` (source lines
760–773) in insertion order. -/
def classifications : List (String × List String) :=
  [("Hardware", ["vrm", "voltage", "thermal", "temperature", "cpu", "memory", "dimm", "ecc", "sensors", "fan"]),
   ("Firmware", ["bios", "uefi", "firmware", "boot", "microcode", "driver"]),
   ("Database", ["database", "sql", "connection", "query", "table", "schema", "mysql", "postgres"]),
   ("Network", ["network", "timeout", "socket", "connection", "http", "tcp", "udp", "dns", "ssl"]),
   ("Memory", ["memory", "heap", "oom", "allocation", "garbage", "leak", "buffer"]),
   ("Filesystem", ["file", "permission", "disk", "directory", "io", "read", "write", "space"]),
   ("Authentication", ["auth", "login", "credential", "token", "session", "password", "unauthorized"]),
   ("Security", ["security", "access", "forbidden", "ssl", "tls", "certificate", "encryption"]),
   ("Performance", ["slow", "performance", "latency", "bottleneck", "cpu", "lag", "delay"]),
   ("Configuration", ["config", "setting", "parameter", "property", "environment", "variable"]),
   ("Pipeline", ["build", "deploy", "pipeline", "ci", "cd", "jenkins", "azure", "docker"]),
   ("Testing", ["test", "assert", "pytest", "jest", "junit", "spec", "mock", "fixture"])]

/-- Python `any(keyword in line_lower for keyword in keywords)` for
one category of the taxonomy. -/
def categoryHit (line_lower : String) (c : String × List String) : Bool :=
  c.2.any (fun kw => strIn kw line_lower)

/-- Embedding of `classify_error` (source lines 756–786): first taxonomy category
with a keyword hit wins; otherwise the generic error / warning / general
fallbacks. -/
def classify_error (line : String) : String :=
  let line_lower := lowerStr line
  match classifications.find? (categoryHit line_lower) with
  | some c => c.1
  | none =>
    if ["error", "exception", "fail", "crash", "panic"].any (fun w => strIn w line_lower) then
      "Application"
    else if ["warn", "warning", "deprecated"].any (fun w => strIn w line_lower) then
      "Warning"
    else "General"

/-- An element of the `errors` list built by `analyze_patterns`
(the entry dict spread together with its `type`). -/
structure ClassifiedError where
  line : Nat
  timestamp : Timestamp
  level : String
  message : String
  severity : ℚ
  type : String
deriving DecidableEq

/-- Python `{**entry, 'type': error_type}` (source lines 748–751). -/
def toError (e : LogEntry) (error_type : String) : ClassifiedError :=
  ⟨e.line, e.timestamp, e.level, e.message, e.severity, error_type⟩

/-- Python `patterns[error_type] += 1` on a `defaultdict(int)`,
modelled on an insertion-ordered association list. -/
def bumpCount : List (String × Nat) → String → List (String × Nat)
  | [], k => [(k, 1)]
  | (k', n) :: rest, k =>
    if k' = k then (k', n + 1) :: rest else (k', n) :: bumpCount rest k

/-- Reading a counter back out of the association list (0 when the key
is absent, as for `defaultdict(int)`). -/
def lookupCount : List (String × Nat) → String → Nat
  | [], _ => 0
  | (k', n) :: rest, t => if k' = t then n else lookupCount rest t

/-- The body of the `for entry in entries` loop of `analyze_patterns`
(source lines 730–752). -/
def analyzeStep (acc : List ClassifiedError × List (String × Nat)) (entry : LogEntry) :
    List ClassifiedError × List (String × Nat) :=
  if 0 < entry.severity then
    if hasSuccessIndicator (lowerStr entry.message) then acc
    else
      let error_type := classify_error entry.message
      (acc.1 ++ [toError entry error_type], bumpCount acc.2 error_type)
  else acc

/-- Embedding of `analyze_patterns` (source lines 725–754). -/
def analyze_patterns (entries : List LogEntry) :
    List ClassifiedError × List (String × Nat) :=
  entries.foldl analyzeStep ([], [])

/-- The predicate selecting the entries that `analyze_patterns` turns
into classified errors. -/
def isErrorEntry (e : LogEntry) : Bool :=
  decide (0 < e.severity) && !hasSuccessIndicator (lowerStr e.message)

/-- The error list accumulated by the loop, relative to any starting
accumulator. -/
lemma foldl_analyzeStep_fst (l : List LogEntry) :
    ∀ acc, (l.foldl analyzeStep acc).1 =
      acc.1 ++ (l.filter isErrorEntry).map (fun e => toError e (classify_error e.message)) := by
  induction l with
  | nil => intro acc; simp
  | cons e rest ih =>
    intro acc
    rw [List.foldl_cons, ih]
    by_cases h1 : 0 < e.severity
    · by_cases h2 : hasSuccessIndicator (lowerStr e.message) = true
      · simp [analyzeStep, h1, h2, isErrorEntry, List.filter_cons]
      · simp only [Bool.not_eq_true] at h2
        simp [analyzeStep, h1, h2, isErrorEntry, List.filter_cons]
    · simp [analyzeStep, h1, isErrorEntry, List.filter_cons]

/-- Counter update semantics of `bumpCount`. -/
lemma lookupCount_bumpCount (m : List (String × Nat)) (k t : String) :
    lookupCount (bumpCount m k) t =
      if k = t then lookupCount m t + 1 else lookupCount m t := by
  induction m with
  | nil =>
    by_cases h : k = t <;> simp [bumpCount, lookupCount, h]
  | cons p rest ih =>
    obtain ⟨k', n⟩ := p
    by_cases h1 : k' = k
    · subst h1
      by_cases h2 : k' = t <;> simp [bumpCount, lookupCount, h2]
    · by_cases h2 : k' = t
      · subst h2
        have : ¬ k = k' := fun h => h1 h.symm
        simp [bumpCount, lookupCount, h1, this]
      · simp [bumpCount, lookupCount, h1, h2, ih]

/-- The pattern counters accumulated by the loop, relative to any
starting accumulator. -/
lemma foldl_analyzeStep_snd (l : List LogEntry) :
    ∀ acc t, lookupCount (l.foldl analyzeStep acc).2 t =
      lookupCount acc.2 t +
        (((l.filter isErrorEntry).map (fun e => toError e (classify_error e.message))).filter
          (fun err => err.type = t)).length := by
  induction l with
  | nil => intro acc t; simp
  | cons e rest ih =>
    intro acc t
    rw [List.foldl_cons, ih]
    by_cases h1 : 0 < e.severity
    · by_cases h2 : hasSuccessIndicator (lowerStr e.message) = true
      · simp [analyzeStep, h1, h2, isErrorEntry, List.filter_cons]
      · simp only [Bool.not_eq_true] at h2
        by_cases h3 : classify_error e.message = t
        · simp [analyzeStep, h1, h2, isErrorEntry, List.filter_cons, toError, h3,
                lookupCount_bumpCount]
          omega
        · simp [analyzeStep, h1, h2, isErrorEntry, List.filter_cons, toError, h3,
                lookupCount_bumpCount]
    · simp [analyzeStep, h1, isErrorEntry, List.filter_cons]

/-- List search: `find?` returns the head of the first hit when
everything before it misses. -/
lemma find?_append_first {α : Type} (p : α → Bool) (pre : List α) (c : α)
    (post : List α) (hpre : ∀ x ∈ pre, p x = false) (hc : p c = true) :
    (pre ++ c :: post).find? p = some c := by
  induction pre with
  | nil => simpa using List.find?_cons_of_pos _ hc
  | cons a as ih =>
    rw [List.cons_append,
        List.find?_cons_of_neg _ (by simp [hpre a (List.mem_cons_self _ _)])]
    exact ih (fun x hx => hpre x (List.mem_cons_of_mem _ hx))

/-- C5: every entry with positive severity and no success indicator
yields exactly one classified error (in input order, with the category
computed by `classify_error`); the pattern counters accumulate the
errors by category; the category assigned is the first one of the fixed
taxonomy order whose keyword list hits the lowercased message, and when
no taxonomy category hits, the generic error / warning / general
fallback applies. -/
theorem classify_first_hit_and_pattern_accumulation :
    (∀ entries, (analyze_patterns entries).1 =
        (entries.filter isErrorEntry).map
          (fun e => toError e (classify_error e.message))) ∧
    (∀ entries t, lookupCount (analyze_patterns entries).2 t =
        ((analyze_patterns entries).1.filter (fun err => err.type = t)).length) ∧
    (∀ line pre c post, classifications = pre ++ c :: post →
        (∀ c' ∈ pre, categoryHit (lowerStr line) c' = false) →
        categoryHit (lowerStr line) c = true →
        classify_error line = c.1) ∧
    (∀ line, (∀ c ∈ classifications, categoryHit (lowerStr line) c = false) →
        classify_error line =
          if ["error", "exception", "fail", "crash", "panic"].any
              (fun w => strIn w (lowerStr line)) then "Application"
          else if ["warn", "warning", "deprecated"].any
              (fun w => strIn w (lowerStr line)) then "Warning"
          else "General") := by
  refine ⟨?_, ?_, ?_, ?_⟩
  · intro entries
    simpa using foldl_analyzeStep_fst entries ([], [])
  · intro entries t
    have h1 := foldl_analyzeStep_fst entries ([], [])
    have h2 := foldl_analyzeStep_snd entries ([], []) t
    simp only [List.nil_append] at h1
    simp only [analyze_patterns, h1]
    simpa [lookupCount] using h2
  · intro line pre c post heq hpre hc
    have hf : classifications.find? (categoryHit (lowerStr line)) = some c := by
      rw [heq]; exact find?_append_first _ pre c post hpre hc
    simp only [classify_error, hf]
  · intro line hmiss
    have hf : classifications.find? (categoryHit (lowerStr line)) = none :=
      List.find?_eq_none.2 (fun x hx => by simp [hmiss x hx])
    simp only [classify_error, hf]

/-- Witness for C5: the message "disk error" skips the first five
taxonomy categories and lands in "Filesystem" via the keyword "disk";
a single positive-severity entry yields exactly its one classified
error. -/
theorem classify_first_hit_and_pattern_accumulation_witness :
    classify_error "disk error" = "Filesystem" ∧
    (analyze_patterns [⟨1, 0, "ERROR", "disk error", 7⟩]).1 =
      ([(⟨1, 0, "ERROR", "disk error", 7⟩ : LogEntry)].filter isErrorEntry).map
        (fun e => toError e (classify_error e.message)) := by
  constructor
  · exact classify_first_hit_and_pattern_accumulation.2.2.1 "disk error"
      [("Hardware", ["vrm", "voltage", "thermal", "temperature", "cpu", "memory", "dimm", "ecc", "sensors", "fan"]),
       ("Firmware", ["bios", "uefi", "firmware", "boot", "microcode", "driver"]),
       ("Database", ["database", "sql", "connection", "query", "table", "schema", "mysql", "postgres"]),
       ("Network", ["network", "timeout", "socket", "connection", "http", "tcp", "udp", "dns", "ssl"]),
       ("Memory", ["memory", "heap", "oom", "allocation", "garbage", "leak", "buffer"])]
      ("Filesystem", ["file", "permission", "disk", "directory", "io", "read", "write", "space"])
      [("Authentication", ["auth", "login", "credential", "token", "session", "password", "unauthorized"]),
       ("Security", ["security", "access", "forbidden", "ssl", "tls", "certificate", "encryption"]),
       ("Performance", ["slow", "performance", "latency", "bottleneck", "cpu", "lag", "delay"]),
       ("Configuration", ["config", "setting", "parameter", "property", "environment", "variable"]),
       ("Pipeline", ["build", "deploy", "pipeline", "ci", "cd", "jenkins", "azure", "docker"]),
       ("Testing", ["test", "assert", "pytest", "jest", "junit", "spec", "mock", "fixture"])]
      rfl (by decide) (by decide)
  · exact classify_first_hit_and_pattern_accumulation.1 [⟨1, 0, "ERROR", "disk error", 7⟩]

/-- The fixed level enumeration of `extract_log_level` (source line
666), checked in severity-descending order. -/
def log_levels : List String :=
  ["CRITICAL", "FATAL", "ERROR", "WARNING", "WARN", "INFO", "DEBUG", "TRACE"]

/-- Python `'[LEVEL]' in line_upper or ' LEVEL ' in line_upper or
'LEVEL:' in line_upper` (source line 670). -/
def levelTagHit (line_upper : String) (level : String) : Bool :=
  strIn ("[" ++ level ++ "]") line_upper ||
  strIn (" " ++ level ++ " ") line_upper ||
  strIn (level ++ ":") line_upper

/-- The `error_indicators` of `extract_log_level` (source line 674). -/
def error_indicators : List String :=
  ["exception", "error", "failed", "failure", "crash", "panic"]

/-- The `warning_indicators` of `extract_log_level` (source line 675). -/
def warning_indicators : List String :=
  ["warning", "warn", "deprecated", "timeout", "retry"]

/-- Embedding of `extract_log_level` (source lines 664–684). -/
def extract_log_level (line : String) : String :=
  let line_upper := upperStr line
  match log_levels.find? (levelTagHit line_upper) with
  | some level => level
  | none =>
    let line_lower := lowerStr line
    if error_indicators.any (fun w => strIn w line_lower) then "ERROR"
    else if warning_indicators.any (fun w => strIn w line_lower) then "WARNING"
    else "INFO"

/-- ASCII whitespace for Python's `str.strip()`. -/
def isWSc (c : Char) : Bool :=
  c == ' ' || c == '\t' || c == '\n' || c == '\r' || c == '\x0b' || c == '\x0c'

/-- Python's `str.strip()` on a character list. -/
def trimCh (l : List Char) : List Char :=
  ((l.dropWhile isWSc).reverse.dropWhile isWSc).reverse

/-- Python's `content.split('\n')`: split on every newline, keeping
empty segments (so `"".split('\n') == [""]`). -/
def splitNl : List Char → List (List Char)
  | [] => [[]]
  | c :: cs =>
    if c = '\n' then [] :: splitNl cs
    else
      match splitNl cs with
      | [] => [[c]]
      | l :: ls => (c :: l) :: ls

/-- The `for i, line in enumerate(lines, 1)` loop of
`parse_log_entries` (source lines 601–622), with the line counter
threaded explicitly.  `extract_timestamp` is a parameter standing for
the regex/`datetime` extraction of source lines 626–662, including its
wall-clock default on unparseable timestamps. -/
def parseLinesFrom (extract_timestamp : String → Timestamp) :
    Nat → List (List Char) → List LogEntry
  | _, [] => []
  | i, l :: rest =>
    let line : String := ⟨trimCh l⟩
    if line = "" then parseLinesFrom extract_timestamp (i + 1) rest
    else
      let level := extract_log_level line
      { line := i, timestamp := extract_timestamp line, level := level,
        message := line, severity := calculate_severity level line } ::
        parseLinesFrom extract_timestamp (i + 1) rest

/-- Embedding of `parse_log_entries` (source lines 596–624). -/
def parse_log_entries (extract_timestamp : String → Timestamp)
    (content : String) : List LogEntry :=
  parseLinesFrom extract_timestamp 1 (splitNl content.data)

/-- One entry per line whose stripped content is non-empty. -/
lemma parseLinesFrom_length (ts : String → Timestamp) (ls : List (List Char)) :
    ∀ k, (parseLinesFrom ts k ls).length =
      (ls.filter (fun l => decide (trimCh l ≠ []))).length := by
  induction ls with
  | nil => intro k; rfl
  | cons l rest ih =>
    intro k
    by_cases h : (⟨trimCh l⟩ : String) = ""
    · have h' : trimCh l = [] := congrArg String.data h
      simp [parseLinesFrom, h, List.filter_cons, h', ih]
    · have h' : ¬ trimCh l = [] := fun hc => h (congrArg String.mk hc)
      simp [parseLinesFrom, h, List.filter_cons, h', ih]

/-- Every produced entry carries the 1-based position of its source
line, and its message is that line stripped (and non-empty). -/
lemma parseLinesFrom_mem (ts : String → Timestamp) (ls : List (List Char)) :
    ∀ k e, e ∈ parseLinesFrom ts k ls →
      k ≤ e.line ∧ e.line < k + ls.length ∧
      e.message = ⟨trimCh (ls.getD (e.line - k) [])⟩ ∧ e.message ≠ "" := by
  induction ls with
  | nil => intro k e he; simp [parseLinesFrom] at he
  | cons l rest ih =>
    intro k e he
    by_cases h : (⟨trimCh l⟩ : String) = ""
    · rw [parseLinesFrom, if_pos h] at he
      obtain ⟨h1, h2, h3, h4⟩ := ih (k + 1) e he
      refine ⟨by omega, by simp; omega, ?_, h4⟩
      have hidx : e.line - k = (e.line - (k + 1)) + 1 := by omega
      rw [hidx, List.getD_cons_succ, h3]
    · rw [parseLinesFrom, if_neg h] at he
      rcases List.mem_cons.1 he with heq | htail
      · subst heq
        refine ⟨le_refl _, by simp, ?_, h⟩
        simp
      · obtain ⟨h1, h2, h3, h4⟩ := ih (k + 1) e htail
        refine ⟨by omega, by simp; omega, ?_, h4⟩
        have hidx : e.line - k = (e.line - (k + 1)) + 1 := by omega
        rw [hidx, List.getD_cons_succ, h3]

/-- Line numbers are strictly increasing along the output. -/
lemma parseLinesFrom_chain (ts : String → Timestamp) (ls : List (List Char)) :
    ∀ k, List.Chain' (fun a b => a.line < b.line) (parseLinesFrom ts k ls) := by
  induction ls with
  | nil => intro k; simp [parseLinesFrom]
  | cons l rest ih =>
    intro k
    by_cases h : (⟨trimCh l⟩ : String) = ""
    · rw [parseLinesFrom, if_pos h]
      exact ih (k + 1)
    · rw [parseLinesFrom, if_neg h]
      refine List.chain'_cons'.2 ⟨?_, ih (k + 1)⟩
      intro b hb
      have hbmem : b ∈ parseLinesFrom ts (k + 1) rest := by
        rcases hx : parseLinesFrom ts (k + 1) rest with _ | ⟨y, ys⟩
        · rw [hx] at hb; simp at hb
        · rw [hx] at hb; simp at hb; subst hb
          exact List.mem_cons_self _ _
      have := (parseLinesFrom_mem ts rest (k + 1) b hbmem).1
      simpa using lt_of_lt_of_le (Nat.lt_succ_self k) this

/-- Every line with non-empty stripped content produces an entry at its
own 1-based position. -/
lemma parseLinesFrom_complete (ts : String → Timestamp) (ls : List (List Char)) :
    ∀ k i, i < ls.length → trimCh (ls.getD i []) ≠ [] →
      ∃ e ∈ parseLinesFrom ts k ls, e.line = k + i := by
  induction ls with
  | nil => intro k i hi; simp at hi
  | cons l rest ih =>
    intro k i hi hne
    cases i with
    | zero =>
      simp only [List.getD_cons_zero] at hne
      have h : ¬ (⟨trimCh l⟩ : String) = "" := fun hc => hne (congrArg String.data hc)
      rw [parseLinesFrom, if_neg h]
      exact ⟨_, List.mem_cons_self _ _, by simp⟩
    | succ j =>
      simp only [List.getD_cons_succ] at hne
      have hj : j < rest.length := by simpa using hi
      obtain ⟨e, he, hline⟩ := ih (k + 1) j hj hne
      by_cases h : (⟨trimCh l⟩ : String) = ""
      · rw [parseLinesFrom, if_pos h]
        exact ⟨e, he, by omega⟩
      · rw [parseLinesFrom, if_neg h]
        exact ⟨e, List.mem_cons_of_mem _ he, by omega⟩

/-- C8: `parse_log_entries` produces exactly one entry per line whose
stripped content is non-empty; entries appear in original order (their
line numbers are strictly increasing); each entry's `line` is the
1-based position of its source line in the split text and its message is
that line stripped; and every non-blank line yields an entry at its own
original position, so blank lines are skipped without renumbering. -/
theorem parse_one_entry_per_nonblank_line (ts : String → Timestamp) (content : String) :
    ((parse_log_entries ts content).length =
      ((splitNl content.data).filter (fun l => decide (trimCh l ≠ []))).length) ∧
    List.Chain' (fun a b => a.line < b.line) (parse_log_entries ts content) ∧
    (∀ e ∈ parse_log_entries ts content,
      1 ≤ e.line ∧ e.line ≤ (splitNl content.data).length ∧
      e.message = ⟨trimCh ((splitNl content.data).getD (e.line - 1) [])⟩ ∧
      e.message ≠ "") ∧
    (∀ i, i < (splitNl content.data).length →
      trimCh ((splitNl content.data).getD i []) ≠ [] →
      ∃ e ∈ parse_log_entries ts content, e.line = i + 1) := by
  refine ⟨parseLinesFrom_length ts _ 1, parseLinesFrom_chain ts _ 1, ?_, ?_⟩
  · intro e he
    obtain ⟨h1, h2, h3, h4⟩ := parseLinesFrom_mem ts _ 1 e he
    exact ⟨h1, by omega, h3, h4⟩
  · intro i hi hne
    obtain ⟨e, he, hline⟩ := parseLinesFrom_complete ts _ 1 i hi hne
    exact ⟨e, he, by omega⟩

/-- Witness for C8: in `"a\n\nb"` the blank middle line is skipped but
still advances the numbering, so the two entries carry line numbers 1
and 3. -/
theorem parse_one_entry_per_nonblank_line_witness :
    (parse_log_entries (fun _ => (0 : Int)) "a\n\nb").length =
      ((splitNl ("a\n\nb" : String).data).filter (fun l => decide (trimCh l ≠ []))).length ∧
    List.Chain' (fun a b => a.line < b.line)
      (parse_log_entries (fun _ => (0 : Int)) "a\n\nb") ∧
    (parse_log_entries (fun _ => (0 : Int)) "a\n\nb").map (fun e => e.line) = [1, 3] :=
  ⟨(parse_one_entry_per_nonblank_line (fun _ => (0 : Int)) "a\n\nb").1,
   (parse_one_entry_per_nonblank_line (fun _ => (0 : Int)) "a\n\nb").2.1,
   rfl⟩

/-- One entry of the `causal_patterns` dict of `build_causal_chains`
(source lines 905–921). -/
structure CausalPattern where
  triggers : List String
  chain : List String
  effects : List String
deriving DecidableEq

/-- The `power_cascade` pattern (source lines 906–910). -/
def powerPattern : CausalPattern :=
  ⟨["vrm", "voltage", "power"],
   ["VRM instability", "Voltage regulation failure", "Power delivery issues",
    "Component undervolt", "System instability"],
   ["thermal", "cpu", "hang", "crash", "reset"]⟩

/-- The `thermal_cascade` pattern (source lines 911–915). -/
def thermalPattern : CausalPattern :=
  ⟨["thermal", "temperature", "overheat"],
   ["Thermal threshold exceeded", "CPU throttling engaged", "Performance degradation",
    "Thermal protection triggered", "Emergency shutdown"],
   ["throttle", "slow", "hang", "shutdown", "reboot"]⟩

/-- The `memory_cascade` pattern (source lines 916–920). -/
def memoryPattern : CausalPattern :=
  ⟨["memory", "dram", "ecc"],
   ["Memory error detected", "ECC correction attempts", "Uncorrectable errors",
    "Memory controller panic", "System halt"],
   ["correction", "uncorrectable", "panic", "halt", "crash"]⟩

/-- The `causal_patterns` dict (source lines 905–921) in insertion
order. -/
def causal_patterns : List (String × CausalPattern) :=
  [("power_cascade", powerPattern),
   ("thermal_cascade", thermalPattern),
   ("memory_cascade", memoryPattern)]

/-- Python `timedelta(minutes=30)` in seconds (source line 943). -/
def time_window : Int := 30 * 60

/-- The inner `for entry in sorted_entries` loop of
`build_causal_chains` (source lines 945–955): skip entries at or before
the anchor, stop at the first entry beyond the 30-minute window,
collect entries with an effect keyword and severity ≥ 6, re-anchoring
the window at each accepted entry's timestamp. -/
def collectEffects (effects : List String) : List LogEntry → Timestamp → List LogEntry
  | [], _ => []
  | entry :: rest, current_time =>
    if entry.timestamp ≤ current_time then collectEffects effects rest current_time
    else if current_time + time_window < entry.timestamp then []
    else if effects.any (fun eff => strIn eff (lowerStr entry.message)) then
      if 6 ≤ entry.severity then
        entry :: collectEffects effects rest entry.timestamp
      else collectEffects effects rest current_time
    else collectEffects effects rest current_time

/-- A chain dict as appended at source lines 968–981. -/
structure CausalChain where
  title : String
  description : String
  chain_text : String
  events : List LogEntry
  confidence : ℚ
  severity : String
  recommendations : List String
deriving DecidableEq

/-- Python's `max(event['severity'] for event in causal_sequence)`
(the sequence is non-empty whenever this is used). -/
def maxSeverity : List LogEntry → ℚ
  | [] => 0
  | e :: rest => rest.foldl (fun acc x => max acc x.severity) e.severity

/-- Python `' → '.join(...)`. -/
def joinArrow : List String → String
  | [] => ""
  | [s] => s
  | s :: rest => s ++ " → " ++ joinArrow rest

/-- Python `pattern_name.replace("_", " ")`. -/
def underscoreToSpace (s : String) : String :=
  ⟨s.data.map (fun c => if c = '_' then ' ' else c)⟩

/-- Python's `str.title()` on ASCII text: a letter after a non-letter
is uppercased, any other letter is lowercased. -/
def titleChars : Bool → List Char → List Char
  | _, [] => []
  | prevAlpha, c :: cs =>
    (if prevAlpha then c.toLower else c.toUpper) :: titleChars c.isAlpha cs

/-- Python `str.title()`. -/
def titleStr (s : String) : String := ⟨titleChars false s.data⟩

/-- The chain dict built at source lines 959–981 for one accepted
causal sequence. -/
def mkCausalChain (pattern_name : String) (pattern_info : CausalPattern)
    (causal_sequence : List LogEntry) : CausalChain :=
  let max_severity := maxSeverity causal_sequence
  { title := titleStr (underscoreToSpace pattern_name) ++ " Failure Chain",
    description := "Detected cascading failure pattern with " ++
      toString causal_sequence.length ++ " linked events",
    chain_text := joinArrow (pattern_info.chain.take causal_sequence.length),
    events := causal_sequence,
    confidence := min 0.95 (0.7 + (causal_sequence.length : ℚ) * 0.05),
    severity := if 9 ≤ max_severity then "Critical"
                else if 7 ≤ max_severity then "High" else "Medium",
    recommendations :=
      ["Investigate root cause in " ++ pattern_info.triggers.headD "" ++ " subsystem",
       "Implement early warning monitoring for cascade prevention",
       "Review protection mechanisms and failsafes",
       "Consider redundancy improvements for critical components"] }

/-- Embedding of `build_causal_chains` (source lines 900–983).  The
call `sorted(entries,
key=lambda x: x['timestamp'])` is the stable `insertionSort` by
timestamp; the `if not trigger_events: continue` shortcut of the source
is the identity on the produced list.  The `errors` argument is unused,
as in the source. -/
def build_causal_chains (entries : List LogEntry) (errors : List ClassifiedError) :
    List CausalChain :=
  let sorted_entries :=
    List.insertionSort (fun a b : LogEntry => a.timestamp ≤ b.timestamp) entries
  causal_patterns.flatMap (fun p =>
    let trigger_events := sorted_entries.filter
      (fun e => p.2.triggers.any (fun t => strIn t (lowerStr e.message)))
    trigger_events.filterMap (fun trigger =>
      let causal_sequence :=
        trigger :: collectEffects p.2.effects sorted_entries trigger.timestamp
      if 2 ≤ causal_sequence.length then
        some (mkCausalChain p.1 p.2 causal_sequence)
      else none))

/-- Every emitted chain is `mkCausalChain` of some pattern of the table
and a causal sequence of length at least 2. -/
lemma build_causal_chains_shape {entries : List LogEntry}
    {errors : List ClassifiedError} {c : CausalChain}
    (hc : c ∈ build_causal_chains entries errors) :
    ∃ p ∈ causal_patterns, ∃ seq : List LogEntry,
      2 ≤ seq.length ∧ c = mkCausalChain p.1 p.2 seq := by
  simp only [build_causal_chains, List.mem_flatMap, List.mem_filterMap,
    List.mem_filter] at hc
  obtain ⟨p, hp, trigger, htr, hsome⟩ := hc
  set sorted_entries :=
    List.insertionSort (fun a b : LogEntry => a.timestamp ≤ b.timestamp) entries with hs
  by_cases hlen : 2 ≤
      (trigger :: collectEffects p.2.effects sorted_entries trigger.timestamp).length
  · rw [if_pos hlen] at hsome
    exact ⟨p, hp, _, hlen, (Option.some.inj hsome).symm⟩
  · rw [if_neg hlen] at hsome
    exact absurd hsome Option.noConfusion

/-- C3: every emitted causal chain has at least 2 events; its
`chain_text` joins the pattern's stage-description list truncated to
the event count; its confidence is exactly
`min 0.95 (0.7 + 0.05 × events)`, hence positive, at most 0.95, and
monotonically non-decreasing in chain length across emitted chains; its
severity label is Critical when the maximum event severity is ≥ 9, High
when it is ≥ 7 and Medium otherwise. -/
theorem causal_chain_emission (entries : List LogEntry) (errors : List ClassifiedError)
    (c : CausalChain) (hc : c ∈ build_causal_chains entries errors) :
    2 ≤ c.events.length ∧
    c.confidence = min 0.95 (0.7 + (c.events.length : ℚ) * 0.05) ∧
    0 < c.confidence ∧ c.confidence ≤ 0.95 ∧
    (∃ p ∈ causal_patterns, c.chain_text = joinArrow (p.2.chain.take c.events.length)) ∧
    c.severity = (if 9 ≤ maxSeverity c.events then "Critical"
                  else if 7 ≤ maxSeverity c.events then "High" else "Medium") ∧
    (∀ c' ∈ build_causal_chains entries errors,
      c.events.length ≤ c'.events.length → c.confidence ≤ c'.confidence) := by
  obtain ⟨p, hp, seq, hlen, hceq⟩ := build_causal_chains_shape hc
  subst hceq
  have hev : (mkCausalChain p.1 p.2 seq).events = seq := rfl
  have hconf : (mkCausalChain p.1 p.2 seq).confidence =
      min 0.95 (0.7 + (seq.length : ℚ) * 0.05) := rfl
  have htext : (mkCausalChain p.1 p.2 seq).chain_text =
      joinArrow (p.2.chain.take seq.length) := rfl
  have hsev : (mkCausalChain p.1 p.2 seq).severity =
      (if 9 ≤ maxSeverity seq then "Critical"
       else if 7 ≤ maxSeverity seq then "High" else "Medium") := rfl
  have hnn : (0 : ℚ) ≤ (seq.length : ℚ) * 0.05 := by positivity
  refine ⟨hev ▸ hlen, by rw [hconf, hev], ?_, ?_, ⟨p, hp, by rw [htext, hev]⟩,
    by rw [hsev, hev], ?_⟩
  · rw [hconf]
    apply lt_min (by norm_num)
    linarith
  · rw [hconf]; exact min_le_left _ _
  · intro c' hc' hle
    obtain ⟨q, hq, seq', hlen', hceq'⟩ := build_causal_chains_shape hc'
    subst hceq'
    have hev' : (mkCausalChain q.1 q.2 seq').events = seq' := rfl
    have hconf' : (mkCausalChain q.1 q.2 seq').confidence =
        min 0.95 (0.7 + (seq'.length : ℚ) * 0.05) := rfl
    rw [hconf, hconf']
    rw [hev, hev'] at hle
    have : (seq.length : ℚ) ≤ (seq'.length : ℚ) := by exact_mod_cast hle
    apply min_le_min (le_refl _)
    nlinarith

/-- The power-cascade trigger entry of the C3/C4 witnesses. -/
def chainEntryA : LogEntry := ⟨1, 0, "ERROR", "vrm failure detected", 7⟩

/-- The effect entry of the C3 witness, one minute after the trigger. -/
def chainEntryB : LogEntry := ⟨2, 60, "CRITICAL", "thermal shutdown crash", 10⟩

/-- The chain emitted on the two-entry witness input. -/
def chainW : CausalChain := mkCausalChain "power_cascade" powerPattern [chainEntryA, chainEntryB]

/-- Witness for C3: the two-entry power-cascade input emits a chain
with 2 events whose confidence satisfies the stated formula and
bounds. -/
theorem causal_chain_emission_witness :
    2 ≤ chainW.events.length ∧
    chainW.confidence = min 0.95 (0.7 + (chainW.events.length : ℚ) * 0.05) ∧
    0 < chainW.confidence ∧ chainW.confidence ≤ 0.95 := by
  have h : build_causal_chains [chainEntryA, chainEntryB] [] = [chainW] := rfl
  have hm : chainW ∈ build_causal_chains [chainEntryA, chainEntryB] [] := by
    rw [h]; exact List.mem_singleton_self _
  obtain ⟨h1, h2, h3, h4, _⟩ := causal_chain_emission [chainEntryA, chainEntryB] [] chainW hm
  exact ⟨h1, h2, h3, h4⟩

/-- The cascading-window invariant: starting from anchor `t`, each
successive event lies strictly after the current anchor, at most
`time_window` after it, carries an effect keyword and severity ≥ 6, and
becomes the new anchor. -/
def anchored (effects : List String) : Timestamp → List LogEntry → Prop
  | _, [] => True
  | t, e :: rest =>
    t < e.timestamp ∧ e.timestamp ≤ t + time_window ∧
    effects.any (fun eff => strIn eff (lowerStr e.message)) = true ∧
    6 ≤ e.severity ∧ anchored effects e.timestamp rest

/-- C4: the effect scan accepts an entry only if its message contains
an effect keyword, its severity is at least 6, and its timestamp lies
within 30 minutes after the current anchor; each accepted entry
re-anchors the window at its own timestamp.  Concretely: severity
exactly 6 is accepted, severity 5.999 is rejected, and an entry 3000 s
after the trigger — beyond the trigger's own 30-minute (1800 s) window —
is still accepted because an intermediate effect at 1500 s re-anchored
the window. -/
theorem effect_window_and_reanchoring :
    (∀ (effects : List String) (l : List LogEntry) (t : Timestamp),
      anchored effects t (collectEffects effects l t)) ∧
    (∀ (effects : List String) (l : List LogEntry) (t : Timestamp) (e : LogEntry),
      e ∈ collectEffects effects l t →
      effects.any (fun eff => strIn eff (lowerStr e.message)) = true ∧ 6 ≤ e.severity) ∧
    collectEffects powerPattern.effects [⟨1, 10, "ERROR", "system crash", 6⟩] 0 =
      [⟨1, 10, "ERROR", "system crash", 6⟩] ∧
    collectEffects powerPattern.effects [⟨1, 10, "ERROR", "system crash", 5.999⟩] 0 = [] ∧
    collectEffects powerPattern.effects
      [⟨2, 1500, "ERROR", "cpu hang", 7⟩, ⟨3, 3000, "CRITICAL", "system crash", 10⟩] 0 =
      [⟨2, 1500, "ERROR", "cpu hang", 7⟩, ⟨3, 3000, "CRITICAL", "system crash", 10⟩] ∧
    (0 : Int) + time_window < (3000 : Int) := by
  refine ⟨?_, ?_, rfl, ?_, rfl, by decide⟩
  · intro effects l
    induction l with
    | nil => intro t; exact trivial
    | cons e rest ih =>
      intro t
      simp only [collectEffects]
      by_cases h1 : e.timestamp ≤ t
      · rw [if_pos h1]; exact ih t
      · rw [if_neg h1]
        by_cases h2 : t + time_window < e.timestamp
        · rw [if_pos h2]; exact trivial
        · rw [if_neg h2]
          by_cases h3 : effects.any (fun eff => strIn eff (lowerStr e.message)) = true
          · rw [if_pos h3]
            by_cases h4 : 6 ≤ e.severity
            · rw [if_pos h4]
              exact ⟨lt_of_not_le h1, le_of_not_lt h2, h3, h4, ih e.timestamp⟩
            · rw [if_neg h4]; exact ih t
          · rw [if_neg h3]; exact ih t
  · intro effects l
    induction l with
    | nil => intro t e he; simp [collectEffects] at he
    | cons e rest ih =>
      intro t e' he'
      simp only [collectEffects] at he'
      by_cases h1 : e.timestamp ≤ t
      · rw [if_pos h1] at he'; exact ih t e' he'
      · rw [if_neg h1] at he'
        by_cases h2 : t + time_window < e.timestamp
        · rw [if_pos h2] at he'; simp at he'
        · rw [if_neg h2] at he'
          by_cases h3 : effects.any (fun eff => strIn eff (lowerStr e.message)) = true
          · rw [if_pos h3] at he'
            by_cases h4 : 6 ≤ e.severity
            · rw [if_pos h4] at he'
              rcases List.mem_cons.1 he' with heq | htail
              · subst heq; exact ⟨h3, h4⟩
              · exact ih e.timestamp e' htail
            · rw [if_neg h4] at he'; exact ih t e' he'
          · rw [if_neg h3] at he'; exact ih t e' he'
  · show collectEffects powerPattern.effects [⟨1, 10, "ERROR", "system crash", 5.999⟩] 0 = []
    simp only [collectEffects]
    rw [if_neg (by decide), if_neg (by decide), if_pos (by decide),
        if_neg (by norm_num : ¬ (6 : ℚ) ≤ 5.999)]

/-- Witness for C4: the far entry accepted through re-anchoring indeed
carries an effect keyword and severity ≥ 6. -/
theorem effect_window_and_reanchoring_witness :
    powerPattern.effects.any
      (fun eff => strIn eff (lowerStr (⟨3, 3000, "CRITICAL", "system crash", 10⟩ : LogEntry).message)) = true ∧
    6 ≤ (⟨3, 3000, "CRITICAL", "system crash", 10⟩ : LogEntry).severity := by
  have h : collectEffects powerPattern.effects
      [⟨2, 1500, "ERROR", "cpu hang", 7⟩, ⟨3, 3000, "CRITICAL", "system crash", 10⟩] 0 =
      [⟨2, 1500, "ERROR", "cpu hang", 7⟩, ⟨3, 3000, "CRITICAL", "system crash", 10⟩] := rfl
  exact effect_window_and_reanchoring.2.1 powerPattern.effects
    [⟨2, 1500, "ERROR", "cpu hang", 7⟩, ⟨3, 3000, "CRITICAL", "system crash", 10⟩] 0
    ⟨3, 3000, "CRITICAL", "system crash", 10⟩
    (by rw [h]; exact List.mem_cons_of_mem _ (List.mem_singleton_self _))

/-- A root-cause dict as appended in `identify_root_causes`.  Promoted
chains carry `causal_chain := some …`; the other tiers omit the key,
modelled as `none`.  Numeric formatting inside `description` fields
(`f'{error_rate:.1f}'`) is abstracted by `toString` of the exact
rational; no claim inspects `description`. -/
structure RootCause where
  title : String
  description : String
  causal_chain : Option String
  confidence : ℚ
  count : Nat
  severity : String
  recommendations : List String
deriving DecidableEq

/-- Tier 1 (source lines 796–806): every chain with at least 3 events
is promoted verbatim. -/
def chainRootCauses (chains : List CausalChain) : List RootCause :=
  chains.filterMap (fun chain =>
    if 3 ≤ chain.events.length then
      some { title := chain.title, description := chain.description,
             causal_chain := some chain.chain_text, confidence := chain.confidence,
             count := chain.events.length, severity := chain.severity,
             recommendations := chain.recommendations }
    else none)

/-- Tier 2 (source lines 809–825): one root cause per category with
count ≥ 1. -/
def patternRootCauses (patterns : List (String × Nat)) : List RootCause :=
  patterns.filterMap (fun p =>
    if 1 ≤ p.2 then
      some { title := p.1 ++ " System Issue",
             description := "Multiple " ++ lowerStr p.1 ++ " events (" ++
               toString p.2 ++ " occurrences) indicate systematic problem",
             causal_chain := none,
             confidence := min 0.95 (0.5 + (p.2 : ℚ) * 0.1),
             count := p.2,
             severity := if 5 ≤ p.2 then "High" else if 2 ≤ p.2 then "Medium" else "Low",
             recommendations :=
               ["Investigate " ++ lowerStr p.1 ++ " infrastructure components",
                "Monitor system resources and performance metrics",
                "Review recent configuration changes",
                "Implement preventive monitoring alerts"] }
    else none)

/-- Tier 3 (source lines 828–861): severity-distribution fallback. -/
def severityDistRootCauses (errors : List ClassifiedError) : List RootCause :=
  let high_severity_errors := errors.filter (fun e => decide (8 ≤ e.severity))
  let medium_severity_errors :=
    errors.filter (fun e => decide (6 ≤ e.severity) && decide (e.severity < 8))
  (if high_severity_errors = [] then [] else
    [{ title := "Critical System Events Detected",
       description := "Found " ++ toString high_severity_errors.length ++
         " critical severity events requiring immediate attention",
       causal_chain := none, confidence := 0.8,
       count := high_severity_errors.length, severity := "Critical",
       recommendations :=
         ["Review critical events immediately",
          "Check system stability and performance",
          "Investigate resource constraints",
          "Implement monitoring for early detection"] }]) ++
  (if medium_severity_errors = [] then [] else
    [{ title := "System Performance Issues",
       description := "Found " ++ toString medium_severity_errors.length ++
         " medium severity events indicating performance degradation",
       causal_chain := none, confidence := 0.7,
       count := medium_severity_errors.length, severity := "Medium",
       recommendations :=
         ["Monitor system performance metrics",
          "Review error patterns for trends",
          "Consider capacity planning",
          "Optimize system configuration"] }])

/-- Tier 4 (source lines 864–896): error-rate fallback. -/
def errorRateRootCauses (entries : List LogEntry) (errors : List ClassifiedError) :
    List RootCause :=
  let total_errors := errors.length
  let total_entries := entries.length
  let error_rate : ℚ :=
    if 0 < total_entries then (total_errors : ℚ) / (total_entries : ℚ) * 100 else 0
  if 5 < error_rate then
    [{ title := "High Error Rate Detected",
       description := "Error rate of " ++ toString error_rate ++ "% (" ++
         toString total_errors ++ "/" ++ toString total_entries ++
         ") exceeds normal thresholds",
       causal_chain := none, confidence := 0.6, count := total_errors,
       severity := "Medium",
       recommendations :=
         ["Investigate causes of elevated error rate",
          "Review system configuration and resources",
          "Implement error rate monitoring",
          "Consider system optimization"] }]
  else if 100 < total_entries then
    [{ title := "System Operating Normally",
       description := "Low error rate of " ++ toString error_rate ++
         "% indicates stable system operation",
       causal_chain := none, confidence := 0.9, count := total_errors,
       severity := "Low",
       recommendations :=
         ["Continue current monitoring practices",
          "Maintain regular log reviews",
          "Keep current configuration",
          "Document stable configuration for reference"] }]
  else []

/-- The descending composite key of the final
`sorted(root_causes, key=lambda x: (x['confidence'], x['count']),
reverse=True)`: `rcGE a b` holds when `a` may come before `b`. -/
def rcGE (a b : RootCause) : Prop :=
  b.confidence < a.confidence ∨ (b.confidence = a.confidence ∧ b.count ≤ a.count)

instance : DecidableRel rcGE := fun a b => by
  unfold rcGE; infer_instance

/-- Embedding of `identify_root_causes` (source lines 788–898): tier 1 and tier 2
always contribute; tier 3 only when tiers 1–2 produced nothing and
errors exist; tier 4 only when tiers 1–3 produced nothing; final stable
descending sort by (confidence, count). -/
def identify_root_causes (entries : List LogEntry) (errors : List ClassifiedError)
    (patterns : List (String × Nat)) : List RootCause :=
  let chains := build_causal_chains entries errors
  let rc12 := chainRootCauses chains ++ patternRootCauses patterns
  let rc123 := rc12 ++ (if rc12 = [] ∧ errors ≠ [] then severityDistRootCauses errors else [])
  let all := rc123 ++ (if rc123 = [] then errorRateRootCauses entries errors else [])
  List.insertionSort rcGE all

/-- The composite descending key is total. -/
lemma rcGE_total : ∀ a b : RootCause, rcGE a b ∨ rcGE b a := by
  intro a b
  rcases lt_trichotomy a.confidence b.confidence with h | h | h
  · right; left; exact h
  · rcases le_total a.count b.count with hc | hc
    · right; right; exact ⟨h, hc⟩
    · left; right; exact ⟨h.symm, hc⟩
  · left; left; exact h

/-- The composite descending key is transitive. -/
lemma rcGE_trans : ∀ a b c : RootCause, rcGE a b → rcGE b c → rcGE a c := by
  intro a b c hab hbc
  rcases hab with h1 | ⟨h1, h1'⟩ <;> rcases hbc with h2 | ⟨h2, h2'⟩
  · left; exact lt_trans h2 h1
  · left; exact lt_of_le_of_lt h2.le h1
  · left; exact lt_of_lt_of_le h2 h1.le
  · right; exact ⟨h2.trans h1, le_trans h2' h1'⟩

/-- Unfolding of `identify_root_causes` into its four tiers. -/
lemma identify_root_causes_eq (entries : List LogEntry) (errors : List ClassifiedError)
    (patterns : List (String × Nat)) :
    identify_root_causes entries errors patterns =
      List.insertionSort rcGE
        (((chainRootCauses (build_causal_chains entries errors) ++ patternRootCauses patterns) ++
          (if (chainRootCauses (build_causal_chains entries errors) ++
                patternRootCauses patterns) = [] ∧ errors ≠ []
           then severityDistRootCauses errors else [])) ++
          (if ((chainRootCauses (build_causal_chains entries errors) ++ patternRootCauses patterns) ++
               (if (chainRootCauses (build_causal_chains entries errors) ++
                     patternRootCauses patterns) = [] ∧ errors ≠ []
                then severityDistRootCauses errors else [])) = []
           then errorRateRootCauses entries errors else [])) := rfl

/-- C6: the final root-cause list is always sorted descending by the
composite key (confidence, count): each adjacent pair satisfies `rcGE`,
i.e. the earlier element has strictly greater confidence, or equal
confidence and a count no smaller than the later one's. -/
theorem root_causes_sorted_desc (entries : List LogEntry) (errors : List ClassifiedError)
    (patterns : List (String × Nat)) :
    List.Chain' rcGE (identify_root_causes entries errors patterns) := by
  haveI : IsTotal RootCause rcGE := ⟨rcGE_total⟩
  haveI : IsTrans RootCause rcGE := ⟨rcGE_trans⟩
  rw [identify_root_causes_eq]
  exact (List.sorted_insertionSort rcGE _).chain'

/-- Every tier-1 root cause comes from a chain with at least 3 events
and keeps its title and confidence. -/
lemma mem_chainRootCauses {chains : List CausalChain} {rc : RootCause}
    (h : rc ∈ chainRootCauses chains) :
    ∃ c ∈ chains, 3 ≤ c.events.length ∧ rc.title = c.title ∧
      rc.confidence = c.confidence := by
  simp only [chainRootCauses, List.mem_filterMap] at h
  obtain ⟨c, hc, hsome⟩ := h
  by_cases h3 : 3 ≤ c.events.length
  · rw [if_pos h3] at hsome
    have := Option.some.inj hsome
    subst this
    exact ⟨c, hc, h3, rfl, rfl⟩
  · rw [if_neg h3] at hsome
    exact absurd hsome Option.noConfusion

/-- Every tier-2 root cause comes from a counted category and carries
the "<category> System Issue" title. -/
lemma mem_patternRootCauses {patterns : List (String × Nat)} {rc : RootCause}
    (h : rc ∈ patternRootCauses patterns) :
    ∃ p ∈ patterns, 1 ≤ p.2 ∧ rc.title = p.1 ++ " System Issue" := by
  simp only [patternRootCauses, List.mem_filterMap] at h
  obtain ⟨p, hp, hsome⟩ := h
  by_cases h1 : 1 ≤ p.2
  · rw [if_pos h1] at hsome
    have := Option.some.inj hsome
    subst this
    exact ⟨p, hp, h1, rfl⟩
  · rw [if_neg h1] at hsome
    exact absurd hsome Option.noConfusion

/-- Tier-2 output is non-empty as soon as some category is counted. -/
lemma patternRootCauses_ne_nil {q : String × Nat} {rest : List (String × Nat)}
    (h1 : 1 ≤ q.2) : patternRootCauses (q :: rest) ≠ [] := by
  simp only [patternRootCauses, List.filterMap_cons, if_pos h1]
  exact List.cons_ne_nil _ _

/-- Tier-3 root causes carry one of the two fallback titles. -/
lemma mem_severityDistRootCauses_title {errors : List ClassifiedError} {rc : RootCause}
    (h : rc ∈ severityDistRootCauses errors) :
    rc.title = "Critical System Events Detected" ∨
    rc.title = "System Performance Issues" := by
  simp only [severityDistRootCauses] at h
  rcases List.mem_append.1 h with h | h
  · split at h
    · simp at h
    · rw [List.mem_singleton] at h; subst h; left; rfl
  · split at h
    · simp at h
    · rw [List.mem_singleton] at h; subst h; right; rfl

/-- Tier-4 root causes carry one of the two error-rate titles, with the
stated confidence and severity. -/
lemma mem_errorRateRootCauses_title {entries : List LogEntry}
    {errors : List ClassifiedError} {rc : RootCause}
    (h : rc ∈ errorRateRootCauses entries errors) :
    (rc.title = "High Error Rate Detected" ∧ rc.confidence = 0.6) ∨
    (rc.title = "System Operating Normally" ∧ rc.confidence = 0.9 ∧
      rc.severity = "Low") := by
  simp only [errorRateRootCauses] at h
  set q : ℚ :=
    if 0 < entries.length then (errors.length : ℚ) / (entries.length : ℚ) * 100 else 0
    with hq
  by_cases h5 : 5 < q
  · rw [if_pos h5, List.mem_singleton] at h; subst h; left; exact ⟨rfl, rfl⟩
  · rw [if_neg h5] at h
    by_cases h100 : 100 < entries.length
    · rw [if_pos h100, List.mem_singleton] at h; subst h; right; exact ⟨rfl, rfl, rfl⟩
    · rw [if_neg h100] at h; simp at h

/-- Every emitted chain carries one of the three pattern titles. -/
lemma build_chain_title {entries : List LogEntry} {errors : List ClassifiedError}
    {c : CausalChain} (hc : c ∈ build_causal_chains entries errors) :
    c.title = "Power Cascade Failure Chain" ∨
    c.title = "Thermal Cascade Failure Chain" ∨
    c.title = "Memory Cascade Failure Chain" := by
  obtain ⟨p, hp, seq, hlen, hceq⟩ := build_causal_chains_shape hc
  subst hceq
  fin_cases hp
  · left; rfl
  · right; left; rfl
  · right; right; rfl

/-- A string with a given appended tail cannot equal a string that does
not end in that tail. -/
lemma ne_of_append_not_suffix (t s c : String) (hs : ¬ s.data <:+ c.data) :
    t ++ s ≠ c := by
  intro h
  apply hs
  refine ⟨t.data, ?_⟩
  have hd : (t ++ s).data = t.data ++ s.data := by
    cases t; cases s; rfl
  rw [← hd, h]

/-- Tier-2 titles are distinct from every fallback title. -/
lemma pattern_title_ne (t : String) :
    t ++ " System Issue" ≠ "Critical System Events Detected" ∧
    t ++ " System Issue" ≠ "System Performance Issues" ∧
    t ++ " System Issue" ≠ "High Error Rate Detected" ∧
    t ++ " System Issue" ≠ "System Operating Normally" :=
  ⟨ne_of_append_not_suffix _ _ _ (by decide),
   ne_of_append_not_suffix _ _ _ (by decide),
   ne_of_append_not_suffix _ _ _ (by decide),
   ne_of_append_not_suffix _ _ _ (by decide)⟩

/-- Tiers 1–2 of the composed ranker never use a fallback title. -/
lemma c12_title_ne {entries : List LogEntry} {errors : List ClassifiedError}
    {patterns : List (String × Nat)} {x : RootCause}
    (hx : x ∈ chainRootCauses (build_causal_chains entries errors) ++
      patternRootCauses patterns) :
    x.title ≠ "Critical System Events Detected" ∧
    x.title ≠ "System Performance Issues" ∧
    x.title ≠ "High Error Rate Detected" ∧
    x.title ≠ "System Operating Normally" := by
  rcases List.mem_append.1 hx with h | h
  · obtain ⟨c, hc, _, htitle, _⟩ := mem_chainRootCauses h
    rcases build_chain_title hc with h3 | h3 | h3 <;> rw [htitle, h3] <;>
      exact ⟨by decide, by decide, by decide, by decide⟩
  · obtain ⟨p, hp, _, htitle⟩ := mem_patternRootCauses h
    rw [htitle]
    exact pattern_title_ne p.1

/-- Guard analysis of the tier-3/tier-4 conditionals, for any tier-1/2
output whose titles avoid the four fallback titles. -/
lemma tier_guard_general (c12 : List RootCause) (entries : List LogEntry)
    (errors : List ClassifiedError) (rc : RootCause)
    (hneq : ∀ x ∈ c12, x.title ≠ "Critical System Events Detected" ∧
        x.title ≠ "System Performance Issues" ∧
        x.title ≠ "High Error Rate Detected" ∧
        x.title ≠ "System Operating Normally")
    (hrc : rc ∈ (c12 ++ (if c12 = [] ∧ errors ≠ [] then severityDistRootCauses errors else [])) ++
        (if (c12 ++ (if c12 = [] ∧ errors ≠ [] then severityDistRootCauses errors else [])) = []
         then errorRateRootCauses entries errors else [])) :
    ((rc.title = "Critical System Events Detected" ∨
      rc.title = "System Performance Issues") → c12 = [] ∧ errors ≠ []) ∧
    ((rc.title = "High Error Rate Detected" ∨
      rc.title = "System Operating Normally") →
      c12 = [] ∧ (errors = [] ∨ severityDistRootCauses errors = [])) := by
  by_cases h1 : c12 = [] ∧ errors ≠ []
  · rw [if_pos h1] at hrc
    by_cases h2 : c12 ++ severityDistRootCauses errors = []
    · rw [if_pos h2, h2, List.nil_append] at hrc
      have hsplit := List.append_eq_nil.1 h2
      refine ⟨fun ht => ?_, fun _ => ⟨hsplit.1, Or.inr hsplit.2⟩⟩
      rcases mem_errorRateRootCauses_title hrc with ⟨ht', _⟩ | ⟨ht', _, _⟩ <;>
        rcases ht with ht | ht <;> (rw [ht] at ht'; exact absurd ht' (by decide))
    · rw [if_neg h2, List.append_nil] at hrc
      rcases List.mem_append.1 hrc with hx | hx
      · obtain ⟨n1, n2, n3, n4⟩ := hneq rc hx
        refine ⟨fun ht => ?_, fun ht => ?_⟩
        · rcases ht with ht | ht
          · exact absurd ht n1
          · exact absurd ht n2
        · rcases ht with ht | ht
          · exact absurd ht n3
          · exact absurd ht n4
      · refine ⟨fun _ => h1, fun ht => ?_⟩
        rcases mem_severityDistRootCauses_title hx with ht' | ht' <;>
          rcases ht with ht | ht <;> (rw [ht] at ht'; exact absurd ht' (by decide))
  · rw [if_neg h1, List.append_nil] at hrc
    by_cases h2 : c12 = []
    · rw [if_pos h2, h2, List.nil_append] at hrc
      have herr : errors = [] := by
        by_contra herr
        exact h1 ⟨h2, herr⟩
      refine ⟨fun ht => ?_, fun _ => ⟨h2, Or.inl herr⟩⟩
      rcases mem_errorRateRootCauses_title hrc with ⟨ht', _⟩ | ⟨ht', _, _⟩ <;>
        rcases ht with ht | ht <;> (rw [ht] at ht'; exact absurd ht' (by decide))
    · rw [if_neg h2, List.append_nil] at hrc
      obtain ⟨n1, n2, n3, n4⟩ := hneq rc hrc
      refine ⟨fun ht => ?_, fun ht => ?_⟩
      · rcases ht with ht | ht
        · exact absurd ht n1
        · exact absurd ht n2
      · rcases ht with ht | ht
        · exact absurd ht n3
        · exact absurd ht n4

/-- When tiers 1–2 are empty and tier 3 contributes nothing, the
pre-sort list collapses to the error-rate tier. -/
lemma tier_rate_emission (c12 : List RootCause) (entries : List LogEntry)
    (errors : List ClassifiedError) (h12 : c12 = [])
    (hsd : errors = [] ∨ severityDistRootCauses errors = []) :
    (c12 ++ (if c12 = [] ∧ errors ≠ [] then severityDistRootCauses errors else [])) ++
      (if (c12 ++ (if c12 = [] ∧ errors ≠ [] then severityDistRootCauses errors else [])) = []
       then errorRateRootCauses entries errors else []) =
      errorRateRootCauses entries errors := by
  subst h12
  have hs : (if ([] : List RootCause) = [] ∧ errors ≠ []
      then severityDistRootCauses errors else []) = [] := by
    rcases hsd with h | h
    · rw [if_neg]; simp [h]
    · by_cases hcond : ([] : List RootCause) = [] ∧ errors ≠ []
      · rw [if_pos hcond]; exact h
      · rw [if_neg hcond]
  rw [hs]
  simp

/-- Root causes of the final list are exactly those of the four-tier
pre-sort list. -/
lemma mem_identify_iff (entries : List LogEntry) (errors : List ClassifiedError)
    (patterns : List (String × Nat)) (rc : RootCause) :
    rc ∈ identify_root_causes entries errors patterns ↔
      rc ∈ ((chainRootCauses (build_causal_chains entries errors) ++ patternRootCauses patterns) ++
        (if (chainRootCauses (build_causal_chains entries errors) ++
              patternRootCauses patterns) = [] ∧ errors ≠ []
         then severityDistRootCauses errors else [])) ++
        (if ((chainRootCauses (build_causal_chains entries errors) ++ patternRootCauses patterns) ++
             (if (chainRootCauses (build_causal_chains entries errors) ++
                   patternRootCauses patterns) = [] ∧ errors ≠ []
              then severityDistRootCauses errors else [])) = []
         then errorRateRootCauses entries errors else []) := by
  rw [identify_root_causes_eq]
  exact (List.perm_insertionSort rcGE _).mem_iff

/-- Two hundred healthy entries: the C7 scenario input. -/
def normalEntries : List LogEntry :=
  (List.range 200).map (fun i => ⟨i + 1, (i : Int), "INFO", "ok", 0⟩)

set_option maxRecDepth 40000 in
/-- C7: the severity-distribution fallback contributes only when
tiers 1–2 produced nothing and errors exist; the error-rate fallback
contributes only when all prior tiers produced nothing, and then a
"High Error Rate Detected" root cause appears when the error rate
exceeds 5 %, while with rate ≤ 5 % and more than 100 entries a
"System Operating Normally" root cause with confidence 0.9 and
severity Low appears; in particular 200 entries with zero errors yield
exactly that root cause. -/
theorem fallback_tier_activation (entries : List LogEntry) (errors : List ClassifiedError)
    (patterns : List (String × Nat)) :
    ((∃ rc ∈ identify_root_causes entries errors patterns,
        rc.title = "Critical System Events Detected" ∨
        rc.title = "System Performance Issues") →
      chainRootCauses (build_causal_chains entries errors) ++ patternRootCauses patterns = [] ∧
      errors ≠ []) ∧
    ((∃ rc ∈ identify_root_causes entries errors patterns,
        rc.title = "High Error Rate Detected" ∨
        rc.title = "System Operating Normally") →
      chainRootCauses (build_causal_chains entries errors) ++ patternRootCauses patterns = [] ∧
      (errors = [] ∨ severityDistRootCauses errors = [])) ∧
    (chainRootCauses (build_causal_chains entries errors) ++ patternRootCauses patterns = [] →
      (errors = [] ∨ severityDistRootCauses errors = []) →
      (5 < (if 0 < entries.length then (errors.length : ℚ) / (entries.length : ℚ) * 100 else 0) →
        ∃ rc ∈ identify_root_causes entries errors patterns,
          rc.title = "High Error Rate Detected" ∧ rc.confidence = 0.6) ∧
      ((if 0 < entries.length then (errors.length : ℚ) / (entries.length : ℚ) * 100 else 0) ≤ 5 →
        100 < entries.length →
        ∃ rc ∈ identify_root_causes entries errors patterns,
          rc.title = "System Operating Normally" ∧ rc.confidence = 0.9 ∧
          rc.severity = "Low")) ∧
    (identify_root_causes normalEntries [] []).map
        (fun rc => (rc.title, rc.confidence, rc.severity)) =
      [("System Operating Normally", 0.9, "Low")] := by
  refine ⟨?_, ?_, ?_, ?_⟩
  · rintro ⟨rc, hrc, ht⟩
    exact (tier_guard_general _ entries errors rc (fun x hx => c12_title_ne hx)
      ((mem_identify_iff entries errors patterns rc).1 hrc)).1 ht
  · rintro ⟨rc, hrc, ht⟩
    exact (tier_guard_general _ entries errors rc (fun x hx => c12_title_ne hx)
      ((mem_identify_iff entries errors patterns rc).1 hrc)).2 ht
  · intro h12 hsd
    have hflat := tier_rate_emission _ entries errors h12 hsd
    constructor
    · intro h5
      have hm : ∃ x ∈ errorRateRootCauses entries errors,
          x.title = "High Error Rate Detected" ∧ x.confidence = 0.6 := by
        simp only [errorRateRootCauses]
        rw [if_pos h5]
        exact ⟨_, List.mem_singleton_self _, rfl, rfl⟩
      obtain ⟨x, hxm, hxp⟩ := hm
      refine ⟨x, ?_, hxp⟩
      rw [mem_identify_iff, hflat]
      exact hxm
    · intro hle h100
      have hm : ∃ x ∈ errorRateRootCauses entries errors,
          x.title = "System Operating Normally" ∧ x.confidence = 0.9 ∧
          x.severity = "Low" := by
        simp only [errorRateRootCauses]
        rw [if_neg (not_lt.2 hle), if_pos h100]
        exact ⟨_, List.mem_singleton_self _, rfl, rfl, rfl⟩
      obtain ⟨x, hxm, hxp⟩ := hm
      refine ⟨x, ?_, hxp⟩
      rw [mem_identify_iff, hflat]
      exact hxm
  · have h12 : chainRootCauses (build_causal_chains normalEntries []) ++
        patternRootCauses ([] : List (String × Nat)) = [] := rfl
    have hflat := tier_rate_emission _ normalEntries [] h12 (Or.inl rfl)
    rw [identify_root_causes_eq, hflat]
    have hlen : normalEntries.length = 200 := rfl
    simp only [errorRateRootCauses, hlen, List.length_nil]
    rw [if_pos (by norm_num : (0 : ℕ) < 200)]
    rw [if_neg (by norm_num : ¬ (5 : ℚ) < ((0 : ℕ) : ℚ) / ((200 : ℕ) : ℚ) * 100)]
    rw [if_pos (by norm_num : (100 : ℕ) < 200)]
    simp [List.insertionSort, List.orderedInsert]

set_option maxRecDepth 40000 in
/-- Witness for C7: on 200 healthy entries the composed ranker emits a
non-empty root-cause list (the "System Operating Normally" fallback). -/
theorem fallback_tier_activation_witness :
    identify_root_causes normalEntries [] [] ≠ [] := by
  have h12 : chainRootCauses (build_causal_chains normalEntries []) ++
      patternRootCauses ([] : List (String × Nat)) = [] := rfl
  obtain ⟨rc, hrc, -⟩ :=
    ((fallback_tier_activation normalEntries [] []).2.2.1 h12 (Or.inl rfl)).2
      (by rw [show normalEntries.length = 200 from rfl]; norm_num)
      (by rw [show normalEntries.length = 200 from rfl]; norm_num)
  intro hnil
  rw [hnil] at hrc
  simp at hrc

/-- A bumped counter list is never empty. -/
lemma bumpCount_ne_nil (m : List (String × Nat)) (k : String) : bumpCount m k ≠ [] := by
  cases m with
  | nil => simp [bumpCount]
  | cons p rest =>
    obtain ⟨k', n⟩ := p
    by_cases h : k' = k <;> simp [bumpCount, h]

/-- Bumping preserves "all counters are at least 1". -/
lemma bumpCount_counts_ge_one (m : List (String × Nat)) (k : String)
    (hm : ∀ p ∈ m, 1 ≤ p.2) : ∀ p ∈ bumpCount m k, 1 ≤ p.2 := by
  induction m with
  | nil =>
    intro p hp
    simp [bumpCount] at hp
    subst hp; exact le_refl _
  | cons q rest ih =>
    obtain ⟨k', n⟩ := q
    intro p hp
    by_cases h : k' = k
    · simp only [bumpCount, if_pos h] at hp
      rcases List.mem_cons.1 hp with rfl | hp
      · exact Nat.le_add_left 1 n
      · exact hm p (List.mem_cons_of_mem _ hp)
    · simp only [bumpCount, if_neg h] at hp
      rcases List.mem_cons.1 hp with rfl | hp
      · exact hm (k', n) (List.mem_cons_self _ _)
      · exact ih (fun q hq => hm q (List.mem_cons_of_mem _ hq)) p hp

/-- Any property preserved by the loop body holds of the fold. -/
lemma foldl_analyzeStep_preserve
    (P : List ClassifiedError × List (String × Nat) → Prop)
    (hstep : ∀ acc e, P acc → P (analyzeStep acc e)) :
    ∀ (l : List LogEntry) acc, P acc → P (l.foldl analyzeStep acc) := by
  intro l
  induction l with
  | nil => intro acc h; exact h
  | cons e rest ih => intro acc h; exact ih _ (hstep acc e h)

/-- In the accumulator, every counter is at least 1. -/
lemma analyze_patterns_counts_ge_one (entries : List LogEntry) :
    ∀ p ∈ (analyze_patterns entries).2, 1 ≤ p.2 := by
  have := foldl_analyzeStep_preserve (fun acc => ∀ p ∈ acc.2, 1 ≤ p.2)
    (fun acc e hacc => by
      unfold analyzeStep
      split
      · split
        · exact hacc
        · exact bumpCount_counts_ge_one acc.2 _ hacc
      · exact hacc)
    entries ([], []) (by simp)
  exact this

/-- Non-empty errors force non-empty pattern counters. -/
lemma analyze_patterns_errors_imp_patterns (entries : List LogEntry) :
    (analyze_patterns entries).1 ≠ [] → (analyze_patterns entries).2 ≠ [] := by
  have := foldl_analyzeStep_preserve (fun acc => acc.1 ≠ [] → acc.2 ≠ [])
    (fun acc e hacc => by
      unfold analyzeStep
      split
      · split
        · exact hacc
        · intro _; exact bumpCount_ne_nil acc.2 _
      · exact hacc)
    entries ([], []) (by simp)
  exact this

/-- C10 (implicit): when the ranker's inputs are the output of
`analyze_patterns`, non-empty errors force a counted category, so the
pattern-frequency tier emits at least one root cause and the overall
result is non-empty; and in this composed pipeline no root cause ever
carries a severity-distribution fallback title — that branch is
unreachable. -/
theorem pattern_tier_covers_errors (entries : List LogEntry) :
    ((analyze_patterns entries).1 ≠ [] →
      (∃ p ∈ (analyze_patterns entries).2, 1 ≤ p.2) ∧
      patternRootCauses (analyze_patterns entries).2 ≠ [] ∧
      identify_root_causes entries (analyze_patterns entries).1
        (analyze_patterns entries).2 ≠ []) ∧
    (∀ rc ∈ identify_root_causes entries (analyze_patterns entries).1
        (analyze_patterns entries).2,
      rc.title ≠ "Critical System Events Detected" ∧
      rc.title ≠ "System Performance Issues") := by
  have hpne : (analyze_patterns entries).1 ≠ [] →
      patternRootCauses (analyze_patterns entries).2 ≠ [] := by
    intro herr
    obtain ⟨q, rest, hq⟩ : ∃ q rest, (analyze_patterns entries).2 = q :: rest := by
      rcases h : (analyze_patterns entries).2 with _ | ⟨q, rest⟩
      · exact absurd h (analyze_patterns_errors_imp_patterns entries herr)
      · exact ⟨q, rest, rfl⟩
    rw [hq]
    exact patternRootCauses_ne_nil
      (analyze_patterns_counts_ge_one entries q (hq ▸ List.mem_cons_self _ _))
  constructor
  · intro herr
    obtain ⟨q, rest, hq⟩ : ∃ q rest, (analyze_patterns entries).2 = q :: rest := by
      rcases h : (analyze_patterns entries).2 with _ | ⟨q, rest⟩
      · exact absurd h (analyze_patterns_errors_imp_patterns entries herr)
      · exact ⟨q, rest, rfl⟩
    refine ⟨⟨q, hq ▸ List.mem_cons_self _ _,
        analyze_patterns_counts_ge_one entries q (hq ▸ List.mem_cons_self _ _)⟩,
      hpne herr, ?_⟩
    intro hnil
    rw [identify_root_causes_eq] at hnil
    have hlen0 := congrArg List.length hnil
    rw [List.length_insertionSort] at hlen0
    have hLnil := List.length_eq_zero.1 hlen0
    have h12 : chainRootCauses (build_causal_chains entries (analyze_patterns entries).1) ++
        patternRootCauses (analyze_patterns entries).2 = [] :=
      (List.append_eq_nil.1 (List.append_eq_nil.1 hLnil).1).1
    exact hpne herr (List.append_eq_nil.1 h12).2
  · intro rc hrc
    have hmem := (mem_identify_iff entries (analyze_patterns entries).1
      (analyze_patterns entries).2 rc).1 hrc
    have hguard := tier_guard_general _ entries (analyze_patterns entries).1 rc
      (fun x hx => c12_title_ne hx) hmem
    constructor
    · intro heq
      obtain ⟨hc12nil, herrne⟩ := hguard.1 (Or.inl heq)
      exact hpne herrne (List.append_eq_nil.1 hc12nil).2
    · intro heq
      obtain ⟨hc12nil, herrne⟩ := hguard.1 (Or.inr heq)
      exact hpne herrne (List.append_eq_nil.1 hc12nil).2

/-- Witness for C10: a single positive-severity error entry makes the
pattern tier non-empty and the composed ranker's output non-empty. -/
theorem pattern_tier_covers_errors_witness :
    patternRootCauses (analyze_patterns [⟨1, 0, "ERROR", "disk failure", 7⟩]).2 ≠ [] ∧
    identify_root_causes [⟨1, 0, "ERROR", "disk failure", 7⟩]
      (analyze_patterns [⟨1, 0, "ERROR", "disk failure", 7⟩]).1
      (analyze_patterns [⟨1, 0, "ERROR", "disk failure", 7⟩]).2 ≠ [] := by
  have h := (pattern_tier_covers_errors [⟨1, 0, "ERROR", "disk failure", 7⟩]).1 (by decide)
  exact ⟨h.2.1, h.2.2⟩

/-- The composed analysis pipeline of `run_analysis` (source lines
546–561): parse, classify, rank.  `extract_timestamp` carries the
"current time" used for entries whose timestamp cannot be extracted. -/
def runPipeline (extract_timestamp : String → Timestamp) (content : String) :
    List LogEntry × List ClassifiedError × List (String × Nat) × List RootCause :=
  let entries := parse_log_entries extract_timestamp content
  let ep := analyze_patterns entries
  (entries, ep.1, ep.2, identify_root_causes entries ep.1 ep.2)

/-- C9: the pipeline is deterministic — two runs on identical input
text, with identical timestamp extraction (including the substituted
"current time" for unparseable timestamps), produce identical entry
sequences, classified errors, pattern counts and ordered root-cause
lists. -/
theorem pipeline_deterministic (ts1 ts2 : String → Timestamp) (c1 c2 : String)
    (hts : ∀ s, ts1 s = ts2 s) (hc : c1 = c2) :
    runPipeline ts1 c1 = runPipeline ts2 c2 := by
  have hfun : ts1 = ts2 := funext hts
  subst hfun
  subst hc
  rfl

/-- Witness for C9: two runs with the same fixed clock on the same text
coincide. -/
theorem pipeline_deterministic_witness :
    runPipeline (fun _ => (0 : Int)) "ERROR disk failure" =
      runPipeline (fun _ => (0 : Int)) "ERROR disk failure" :=
  pipeline_deterministic (fun _ => (0 : Int)) (fun _ => (0 : Int))
    "ERROR disk failure" "ERROR disk failure" (fun _ => rfl) rfl

end LogAnalyzer
